import Mathlib

/-!
Shallow embedding of the schema-driven registry decode engine from
`registry_windows.go` (the `Parse(url, target)` / `entryFor` / `populate` /
`unmarshal` pipeline) of DHowett/registry.

Modelling conventions:
  * machine bytes are `Nat` (one per byte), registry handles are `Nat`;
  * Go strings are modelled at the rune level as `List Nat` of code points
    (splitting a UTF-8 string on the NUL byte coincides with splitting the
    rune sequence on the rune 0, since NUL is the only rune whose UTF-8
    encoding contains a zero byte);
  * the external store (`syscall.RegOpenKeyEx` / `RegQueryValueEx`) is a
    record of oracles, and every populate step also records the trace of
    store operations it performed, so that "no I/O happened" and "no extra
    container was opened" are statable;
  * Go panics (indexing `&data[0]` of an empty slice, slicing with a negative
    bound) are modelled as an explicit `goPanic` outcome;
  * in-place mutation of the target through `reflect` is modelled by state
    passing: `unmarshal` returns the updated target value together with the
    outcome, and on error the partially-mutated value is returned, mirroring
    the fact that Go leaves earlier in-place writes in the struct;
  * `reflect` addressability is threaded through unmarshal as a flag: the
    top-level `reflect.ValueOf` value `Parse` hands in is unaddressable (so
    any write to it, including `Set` on a nil top-level pointer, panics),
    a dereferenced pointer is addressable, and struct fields inherit the
    struct's addressability;
  * the platform word size of Go's `int`/`uint` is 64 bits (windows/amd64).
-/

/-- Registry handles, modelling `syscall.Handle`. -/
abbrev Handle := Nat

/-- Raw value data, modelling `[]byte` with one `Nat` per byte. -/
abbrev Bytes := List Nat

/-- The root handle `syscall.HKEY_CURRENT_USER`. -/
def HKCU : Handle := 0x80000001

/-- The root handle `syscall.HKEY_LOCAL_MACHINE`. -/
def HKLM : Handle := 0x80000002

mutual
/-- Go types of target fields, mirroring the `reflect.Kind`s the decoder
dispatches on.  `structT` carries the declared fields; `otherT` stands for
any Go kind the decoder has no case for. -/
inductive GoType where
  | uintT | uint8T | uint16T | uint32T | uint64T
  | intT | int8T | int16T | int32T | int64T
  | stringT
  | sliceT (elem : GoType)
  | ptrT (elem : GoType)
  | structT (fields : List GoField)
  | otherT

/-- One declared struct field: Go name, the value of its `registry` tag,
`Anonymous`, whether it is exported (`PkgPath == ""`), and its type. -/
inductive GoField where
  | mk (name : String) (tag : String) (anonymous : Bool) (exported : Bool)
      (typ : GoType)
end

/-- Go field name accessor. -/
def GoField.name : GoField → String
  | .mk n _ _ _ _ => n

/-- Raw `registry` tag accessor. -/
def GoField.tag : GoField → String
  | .mk _ t _ _ _ => t

/-- `StructField.Anonymous` accessor. -/
def GoField.anonymous : GoField → Bool
  | .mk _ _ a _ _ => a

/-- Exportedness (`PkgPath == ""`) accessor. -/
def GoField.exported : GoField → Bool
  | .mk _ _ _ e _ => e

/-- Field type accessor. -/
def GoField.typ : GoField → GoType
  | .mk _ _ _ _ t => t

/-- Runtime Go values of target fields.  Integer fields store the value that
the `reflect.Value.SetUint` / `SetInt` write left in the field. -/
inductive GoValue where
  | uintV (v : Nat)
  | intV (v : Int)
  | stringV (runes : List Nat)
  | bytesV (b : Bytes)
  | strListV (l : List (List Nat))
  | ptrV (inner : Option GoValue)
  | structV (fields : List GoValue)
  | otherV

mutual
/-- The zero Go value of a type (what a fresh target instance holds). -/
def zeroValue : GoType → GoValue
  | .uintT | .uint8T | .uint16T | .uint32T | .uint64T => .uintV 0
  | .intT | .int8T | .int16T | .int32T | .int64T => .intV 0
  | .stringT => .stringV []
  | .sliceT .uint8T => .bytesV []
  | .sliceT .stringT => .strListV []
  | .sliceT _ => .otherV
  | .ptrT _ => .ptrV none
  | .structT fields => .structV (zeroFields fields)
  | .otherT => .otherV

def zeroFields : List GoField → List GoValue
  | [] => []
  | .mk _ _ _ _ t :: rest => zeroValue t :: zeroFields rest
end

/-- Bit width used by `reflect.Value.SetUint`/`SetInt` truncation for each
integer kind; Go's `int`/`uint` are 64 bits on this platform. -/
def goWidth : GoType → Nat
  | .uintT => 64 | .uint8T => 8 | .uint16T => 16 | .uint32T => 32
  | .uint64T => 64
  | .intT => 64 | .int8T => 8 | .int16T => 16 | .int32T => 32
  | .int64T => 64
  | _ => 0

/-- Two's-complement truncation of an integer to `w` bits: the value a
`reflect.Value.SetInt` write leaves in a signed field of width `w`. -/
def intTrunc (w : Nat) (n : Int) : Int :=
  if n % (2 : Int) ^ w < (2 : Int) ^ (w - 1) then n % (2 : Int) ^ w
  else n % (2 : Int) ^ w - (2 : Int) ^ w

/-- The decoder's per-field metadata, mirroring `fieldInfo` in the source. -/
structure fieldInfo where
  name : String
  required : Bool
  index : List Nat
  anonymous : Bool
deriving DecidableEq, Repr

/-- `strings.Split(s, ",")` at the character-list level (structural, so that
it evaluates inside the kernel). -/
def splitComma : List Char → List (List Char)
  | [] => [[]]
  | c :: rest =>
    if c = ',' then [] :: splitComma rest
    else
      match splitComma rest with
      | s :: ss => (c :: s) :: ss
      | [] => [[c]]

/-- The components of a `registry` tag, mirroring `strings.Split(tag, ",")`. -/
def tagParts (tag : String) : List String :=
  (splitComma tag.data).map fun l => String.mk l

/-- The empty string (the zero value of Go's `string`). -/
def sEmpty : String := ""

/-- The resolved store name of a field: the first tag component, defaulting
to the Go field name when it is empty. -/
def resolvedName (name tag : String) : String :=
  let sp := tagParts tag
  let raw := sp.headD sEmpty
  if raw = "" then name else raw

/-- Whether any tag component after the first is the word `required`. -/
def hasRequired (tag : String) : Bool :=
  (tagParts tag).tail.any fun c => decide (c = "required")

/-- `fieldToFieldInfo` from the source: `none` for unexported fields and for
fields whose tag is exactly `-`; otherwise the resolved name, required flag,
index path and anonymous flag. -/
def fieldToFieldInfo (idx : Nat) (name tag : String) (anonymous exported : Bool) :
    Option fieldInfo :=
  if exported = false then none
  else if tag = "-" then none
  else some ⟨resolvedName name tag, hasRequired tag, [idx], anonymous⟩

/-- The entry-descriptor tree built by `entryFor`: a leaf per scalar/slice
field (`registryValue`) and a branch per composite field (`registryKey`). -/
inductive registryEntry where
  | value (field : fieldInfo)
  | key (field : fieldInfo) (path : String) (subentries : List registryEntry)

/-- The field metadata carried by an entry. -/
def entryFieldInfo : registryEntry → fieldInfo
  | .value fi => fi
  | .key fi _ _ => fi

/-- The resolved store names of a list of entries, in order. -/
def entryNames (es : List registryEntry) : List String :=
  es.map fun e => (entryFieldInfo e).name

mutual
/-- `entryFor` from the source: unwrap one pointer level, then build a
`registryKey` for a struct (recursing into its declared fields in order) and
a `registryValue` for everything else.  There is no failure case and no
duplicate-name check. -/
def entryFor (typ : GoType) (path : String) (fi : fieldInfo) : registryEntry :=
  match typ with
  | .structT fields => .key fi path (entriesForFields fields 0)
  | .ptrT (.structT fields) => .key fi path (entriesForFields fields 0)
  | .ptrT _ => .value fi
  | _ => .value fi

def entriesForFields : List GoField → Nat → List registryEntry
  | [], _ => []
  | .mk n tag anon exp t :: rest, i =>
    match fieldToFieldInfo i n tag anon exp with
    | none => entriesForFields rest (i + 1)
    | some nfi => entryFor t nfi.name nfi :: entriesForFields rest (i + 1)
end

/-- The resolved names a field list contributes to its composite's entry set
(the specification-level view of §4.1 name resolution, used to compare with
what `entriesForFields` actually builds). -/
def resolvedNames : List GoField → List String
  | [] => []
  | .mk n tag anon exp _ :: rest =>
    match fieldToFieldInfo 0 n tag anon exp with
    | none => resolvedNames rest
    | some nfi => nfi.name :: resolvedNames rest

/-- The external store: `RegOpenKeyEx` (container open), the size/type probe
`RegQueryValueEx(.., nil, &keyType, nil, &dataLen)`, and the full read
`RegQueryValueEx(.., &data[0], &dataLen)` with the probed size hint. -/
structure Store where
  openKey : Handle → String → Option Handle
  probe : Handle → String → Option (Nat × Nat)
  read : Handle → String → Nat → Option Bytes

/-- One store operation, recorded in populate traces: a container open
attempt, a container close, a size/type probe, or a full value read. -/
inductive StoreOp where
  | openK (parent : Handle) (path : String)
  | closeK (h : Handle)
  | probeV (parent : Handle) (name : String)
  | readV (parent : Handle) (name : String)
deriving DecidableEq, Repr

/-- The decode errors the engine can return.  `requiredKeyMissing` and
`requiredValueMissing` are the two `RequiredMissing` shapes ("required
key/value '%s' could not be opened"); `storeReadError` is the raw error the
second `RegQueryValueEx` call is returned through unchanged. -/
inductive Err where
  | requiredKeyMissing (path : String)
  | requiredValueMissing (name : String)
  | storeReadError
  | unsupportedStoreType (name : String) (kind : Int)
  | typeMismatch (name : String)
  | unknownTargetType (name : String)
  | unknownRoot (host : String)
  | malformedTarget
deriving DecidableEq, Repr

/-- Whether an error is one of the two `RequiredMissing` shapes. -/
def isRequiredMissing : Err → Bool
  | .requiredKeyMissing _ => true
  | .requiredValueMissing _ => true
  | _ => false

/-- Outcome of an engine phase: success, a returned error, or a Go panic. -/
inductive Outcome (α : Type) where
  | ok (a : α)
  | err (e : Err)
  | goPanic
deriving DecidableEq, Repr

/-- The populated entry tree: each `registryValue` now holds the raw data,
store type tag and skip flag, each `registryKey` its skip flag. -/
inductive pEntry where
  | value (field : fieldInfo) (data : Bytes) (kind : Int) (skip : Bool)
  | key (field : fieldInfo) (subentries : List pEntry) (skip : Bool)

/-- The index path of a populated entry's field. -/
def pEntryIndex : pEntry → List Nat
  | .value fi _ _ _ => fi.index
  | .key fi _ _ => fi.index

mutual
/-- The initial (pre-populate) state of an entry: no data, kind `-1`, skip
unset — the state subentries of a skipped container remain in. -/
def initPEntry : registryEntry → pEntry
  | .value fi => .value fi [] (-1) false
  | .key fi _ subs => .key fi (initList subs) false

/-- Initial states of a list of entries. -/
def initList : List registryEntry → List pEntry
  | [] => []
  | e :: rest => initPEntry e :: initList rest
end

mutual
/-- `registryValue.populate` / `registryKey.populate` from the source.
A value entry probes its name under the parent handle: probe failure is
`RequiredMissing` when required, else a successful skip; a successful probe
of zero length panics on `&data[0]`; a failing second read returns the raw
store error unconditionally.  A non-anonymous key opens its path under the
parent (failure: `RequiredMissing` when required, else a successful skip),
populates its subentries against the new handle and closes it on every exit
path; an anonymous key reuses the parent handle with no open or close.
The second component is the trace of store operations performed. -/
def populate (st : Store) (parent : Handle) :
    registryEntry → Outcome pEntry × List StoreOp
  | .value fi =>
    match st.probe parent fi.name with
    | none =>
      if fi.required then
        (.err (.requiredValueMissing fi.name), [.probeV parent fi.name])
      else (.ok (.value fi [] (-1) true), [.probeV parent fi.name])
    | some (dataLen, keyType) =>
      if dataLen = 0 then (.goPanic, [.probeV parent fi.name])
      else
        match st.read parent fi.name dataLen with
        | none =>
          (.err .storeReadError, [.probeV parent fi.name, .readV parent fi.name])
        | some data =>
          (.ok (.value fi data (Int.ofNat keyType) false),
           [.probeV parent fi.name, .readV parent fi.name])
  | .key fi path subs =>
    if fi.anonymous then
      match populateList st parent subs with
      | (.ok ps, tr) => (.ok (.key fi ps false), tr)
      | (.err e, tr) => (.err e, tr)
      | (.goPanic, tr) => (.goPanic, tr)
    else
      match st.openKey parent path with
      | none =>
        if fi.required then (.err (.requiredKeyMissing path), [.openK parent path])
        else (.ok (.key fi (initList subs) true), [.openK parent path])
      | some h =>
        match populateList st h subs with
        | (.ok ps, tr) =>
          (.ok (.key fi ps false), .openK parent path :: tr ++ [.closeK h])
        | (.err e, tr) => (.err e, .openK parent path :: tr ++ [.closeK h])
        | (.goPanic, tr) => (.goPanic, .openK parent path :: tr ++ [.closeK h])

/-- Populate a list of sibling entries in declaration order, stopping at the
first error or panic. -/
def populateList (st : Store) (h : Handle) :
    List registryEntry → Outcome (List pEntry) × List StoreOp
  | [] => (.ok [], [])
  | e :: rest =>
    match populate st h e with
    | (.ok pe, tr) =>
      match populateList st h rest with
      | (.ok ps, tr2) => (.ok (pe :: ps), tr ++ tr2)
      | (.err er, tr2) => (.err er, tr ++ tr2)
      | (.goPanic, tr2) => (.goPanic, tr ++ tr2)
    | (.err er, tr) => (.err er, tr)
    | (.goPanic, tr) => (.goPanic, tr)
end

/-- `binary.LittleEndian.Uint32` via `binary.Read`: reads the first four
bytes; on fewer than four bytes `binary.Read`'s error is ignored and the
variable keeps its zero value. -/
def readU32LE : Bytes → Nat
  | b0 :: b1 :: b2 :: b3 :: _ => b0 + 256 * (b1 + 256 * (b2 + 256 * b3))
  | _ => 0

/-- Big-endian variant of the four-byte read. -/
def readU32BE : Bytes → Nat
  | b0 :: b1 :: b2 :: b3 :: _ => b3 + 256 * (b2 + 256 * (b1 + 256 * b0))
  | _ => 0

/-- `binary.LittleEndian.Uint64` via `binary.Read`, zero on short data. -/
def readU64LE : Bytes → Nat
  | b0 :: b1 :: b2 :: b3 :: b4 :: b5 :: b6 :: b7 :: _ =>
    b0 + 256 * (b1 + 256 * (b2 + 256 * (b3 + 256 *
      (b4 + 256 * (b5 + 256 * (b6 + 256 * b7))))))
  | _ => 0

/-- The byte-pair loop of `utf16BytesToUTF8`: little-endian 16-bit code
units from consecutive byte pairs; a trailing odd byte leaves the last slot
of the `(len+1)/2`-sized array untouched by the loop, and the source then
overwrites that slot with `utf8.RuneError` (U+FFFD). -/
def bytesToU16 : Bytes → List Nat
  | [] => []
  | [_] => [0xFFFD]
  | lo :: hi :: rest => (lo + 256 * hi) :: bytesToU16 rest

/-- Whether a code unit is a high surrogate (`surr1 <= r < surr2`). -/
def isHighSurr (u : Nat) : Bool := decide (0xD800 ≤ u ∧ u < 0xDC00)

/-- Whether a code unit is a low surrogate (`surr2 <= r < surr3`). -/
def isLowSurr (u : Nat) : Bool := decide (0xDC00 ≤ u ∧ u < 0xE000)

/-- `unicode/utf16.Decode`, one code unit at a time with the pending high
surrogate (the loop's one-unit lookahead) made explicit so the recursion is
structural: surrogate pairs combine, unpaired surrogates become U+FFFD,
everything else passes through. -/
def utf16DecodeAux : Option Nat → List Nat → List Nat
  | none, [] => []
  | some _, [] => [0xFFFD]
  | none, u :: rest =>
    if isHighSurr u then utf16DecodeAux (some u) rest
    else if isLowSurr u then 0xFFFD :: utf16DecodeAux none rest
    else u :: utf16DecodeAux none rest
  | some hs, u :: rest =>
    if isLowSurr u then
      (0x10000 + (hs - 0xD800) * 0x400 + (u - 0xDC00)) :: utf16DecodeAux none rest
    else if isHighSurr u then 0xFFFD :: utf16DecodeAux (some u) rest
    else 0xFFFD :: u :: utf16DecodeAux none rest

/-- `unicode/utf16.Decode` on a code-unit sequence. -/
def utf16Decode (us : List Nat) : List Nat := utf16DecodeAux none us

/-- `utf16BytesToUTF8` from the source, as a rune sequence. -/
def utf16BytesToUTF8 (b : Bytes) : List Nat :=
  utf16Decode (bytesToU16 b)

/-- `strings.Split(s, "\000")` at the rune level (NUL is the only rune whose
UTF-8 encoding contains a zero byte, so byte- and rune-level splits agree). -/
def splitOnZero : List Nat → List (List Nat)
  | [] => [[]]
  | c :: rest =>
    if c = 0 then [] :: splitOnZero rest
    else
      match splitOnZero rest with
      | s :: ss => (c :: s) :: ss
      | [] => [[c]]

/-- The canonical decoded value: the `(newKind, x)` pair of the source's
type-tag switch as a tagged union. -/
inductive Canonical where
  | numeric (v : Nat)
  | bigNumeric (v : Nat)
  | text (runes : List Nat)
  | multiText (l : List (List Nat))
  | blob (b : Bytes)
deriving DecidableEq, Repr

/-- The store-type-tag switch of `registryValue.unmarshal`.  Tags are the
`syscall` registry constants: 1 `REG_SZ`, 2 `REG_EXPAND_SZ`, 3 `REG_BINARY`,
4 `REG_DWORD_LITTLE_ENDIAN`, 5 `REG_DWORD_BIG_ENDIAN`, 7 `REG_MULTI_SZ`,
11 `REG_QWORD_LITTLE_ENDIAN`.  Text slices `data[:len-2]` (a Go panic when
`len(data) < 2`); multi-text splits on NUL and slices `[:len-2]` of the
segments (a Go panic when fewer than two segments). -/
def decodeRaw (name : String) (data : Bytes) (kind : Int) : Outcome Canonical :=
  if kind = 5 then .ok (.numeric (readU32BE data))
  else if kind = 4 then .ok (.numeric (readU32LE data))
  else if kind = 11 then .ok (.bigNumeric (readU64LE data))
  else if kind = 1 ∨ kind = 2 then
    if data.length < 2 then .goPanic
    else .ok (.text (utf16BytesToUTF8 (data.take (data.length - 2))))
  else if kind = 7 then
    let segs := splitOnZero (utf16BytesToUTF8 data)
    if segs.length < 2 then .goPanic
    else .ok (.multiText (segs.take (segs.length - 2)))
  else if kind = 3 then .ok (.blob data)
  else .err (.unsupportedStoreType name kind)

/-- The target-kind switch of `registryValue.unmarshal`: strict kind
compatibility, with `SetUint`/`SetInt` truncation to the field width and no
range check. -/
def convertVal (name : String) (c : Canonical) (typ : GoType) :
    Except Err GoValue :=
  match typ with
  | .uintT | .uint8T | .uint16T | .uint32T =>
    match c with
    | .numeric v => .ok (.uintV (v % 2 ^ goWidth typ))
    | _ => .error (.typeMismatch name)
  | .intT | .int8T | .int16T | .int32T =>
    match c with
    | .numeric v => .ok (.intV (intTrunc (goWidth typ) (Int.ofNat v)))
    | _ => .error (.typeMismatch name)
  | .uint64T =>
    match c with
    | .bigNumeric v => .ok (.uintV (v % 2 ^ 64))
    | _ => .error (.typeMismatch name)
  | .int64T =>
    match c with
    | .bigNumeric v => .ok (.intV (intTrunc 64 (Int.ofNat v)))
    | _ => .error (.typeMismatch name)
  | .sliceT .uint8T =>
    match c with
    | .blob b => .ok (.bytesV b)
    | _ => .error (.typeMismatch name)
  | .sliceT .stringT =>
    match c with
    | .multiText l => .ok (.strListV l)
    | _ => .error (.typeMismatch name)
  | .sliceT _ => .error (.typeMismatch name)
  | .stringT =>
    match c with
    | .text s => .ok (.stringV s)
    | _ => .error (.typeMismatch name)
  | _ => .error (.unknownTargetType name)

/-- Unmarshal outcome: success, an error return, or a Go panic.  The updated
target value travels alongside, because `reflect` writes in place. -/
inductive URes where
  | ok
  | err (e : Err)
  | goPanic
deriving DecidableEq, Repr

/-- `registryValue.unmarshal` from the source: skip is a no-op; the raw pair
is decoded first (so an unrecognized tag errors before any target write); a
pointer target then gets a fresh zero pointee allocated unconditionally, and
the canonical value is converted into the (unwrapped) target kind.  On a
conversion error the allocated pointee stays allocated. -/
def unmarshalValue (fi : fieldInfo) (data : Bytes) (kind : Int) (skip : Bool)
    (typ : GoType) (val : GoValue) : GoValue × URes :=
  if skip then (val, .ok)
  else
    match decodeRaw fi.name data kind with
    | .goPanic => (val, .goPanic)
    | .err e => (val, .err e)
    | .ok c =>
      match typ with
      | .ptrT t =>
        match convertVal fi.name c t with
        | .ok v => (.ptrV (some v), .ok)
        | .error e => (.ptrV (some (zeroValue t)), .err e)
      | t =>
        match convertVal fi.name c t with
        | .ok v => (v, .ok)
        | .error e => (val, .err e)

/-- `registryValue.unmarshal` on an unaddressable value, as the top-level
`reflect.ValueOf` value `Parse` hands in: skip still returns before any
write, and the decode switch and each kind-compatibility check still raise
their errors first (every check precedes the write in the source), but each
write — the `Set` allocating a pointer target as well as the final
`SetUint`/`SetInt`/`SetBytes`/`Set`/`SetString` — panics on an unaddressable
`reflect.Value`. -/
def unmarshalValueUnaddr (fi : fieldInfo) (data : Bytes) (kind : Int)
    (skip : Bool) (typ : GoType) (val : GoValue) : GoValue × URes :=
  if skip then (val, .ok)
  else
    match decodeRaw fi.name data kind with
    | .goPanic => (val, .goPanic)
    | .err e => (val, .err e)
    | .ok c =>
      match typ with
      | .ptrT _ => (val, .goPanic)
      | t =>
        match convertVal fi.name c t with
        | .ok _ => (val, .goPanic)
        | .error e => (val, .err e)

/-- The field type at an index path (`reflect.Type.FieldByIndex`). -/
def typeAt : GoType → List Nat → Option GoType
  | t, [] => some t
  | .structT fs, i :: rest =>
    match fs.get? i with
    | some f => typeAt f.typ rest
    | none => none
  | _, _ :: _ => none

/-- The field value at an index path (`reflect.Value.FieldByIndex`). -/
def valAt : GoValue → List Nat → Option GoValue
  | v, [] => some v
  | .structV fs, i :: rest =>
    match fs.get? i with
    | some fv => valAt fv rest
    | none => none
  | _, _ :: _ => none

/-- Writing back through the reference `FieldByIndex` returned: replace the
field value at an index path. -/
def setAt : GoValue → List Nat → GoValue → Option GoValue
  | _, [], nv => some nv
  | .structV fs, i :: rest, nv =>
    match fs.get? i with
    | some fv =>
      match setAt fv rest nv with
      | some fv2 => some (.structV (fs.set i fv2))
      | none => none
    | none => none
  | _, _ :: _, _ => none

mutual
/-- `registryKey.unmarshal` / `registryValue.unmarshal` dispatch, with the
`reflect` addressability of the handed-in value made explicit: the value
`Parse` passes in comes from `reflect.ValueOf` and is unaddressable, while a
dereferenced pointer is addressable and the fields of a struct inherit its
addressability.  A skipped key is a no-op; a non-nil pointer target is
dereferenced (its pointee is addressable either way); a nil pointer target
is allocated with `Set` when addressable and panics when not; then every
subentry is unmarshaled in order into the field its index path names.  An
error aborts the loop but the fields already written stay written. -/
def unmarshalEntry (addressable : Bool) :
    pEntry → GoType → GoValue → GoValue × URes
  | .value fi data kind skip, typ, val =>
    if addressable then unmarshalValue fi data kind skip typ val
    else unmarshalValueUnaddr fi data kind skip typ val
  | .key _ subs skip, typ, val =>
    if skip then (val, .ok)
    else
      match typ, val with
      | .ptrT t, .ptrV inner =>
        match inner with
        | some v0 =>
          match unmarshalSubs true subs t v0 with
          | (v, r) => (.ptrV (some v), r)
        | none =>
          if addressable then
            match unmarshalSubs true subs t (zeroValue t) with
            | (v, r) => (.ptrV (some v), r)
          else (val, .goPanic)
      | t, v => unmarshalSubs addressable subs t v

/-- Unmarshal sibling entries in order, the fields inheriting the enclosing
struct's addressability; mutations persist across an error.  Index paths
that do not resolve model the `reflect` panics of `FieldByIndex` on a
non-struct. -/
def unmarshalSubs (addressable : Bool) :
    List pEntry → GoType → GoValue → GoValue × URes
  | [], _, val => (val, .ok)
  | pe :: rest, typ, val =>
    match typeAt typ (pEntryIndex pe), valAt val (pEntryIndex pe) with
    | some ftyp, some fval =>
      match unmarshalEntry addressable pe ftyp fval with
      | (fv, .ok) =>
        match setAt val (pEntryIndex pe) fv with
        | some val2 => unmarshalSubs addressable rest typ val2
        | none => (val, .goPanic)
      | (fv, r) =>
        match setAt val (pEntryIndex pe) fv with
        | some val2 => (val2, r)
        | none => (val, .goPanic)
    | _, _ => (val, .goPanic)
end

/-- ASCII lower-casing of one character (`strings.ToLower` on the hosts the
root table knows). -/
def lowerChar (c : Char) : Char :=
  if 'A' ≤ c ∧ c ≤ 'Z' then Char.ofNat (c.toNat + 32) else c

/-- ASCII lower-casing of a string. -/
def lowerString (s : String) : String :=
  String.mk (s.data.map lowerChar)

/-- The fixed root table of `Parse`: `hkcu` and `hklm`, case-insensitively. -/
def rootFor (host : String) : Option Handle :=
  if lowerString host = "hkcu" then some HKCU
  else if lowerString host = "hklm" then some HKLM
  else none

/-- The non-struct target test of `Parse`, literally as written:
`(Kind == Ptr && Elem.Kind != Struct) && (Kind != Struct)`. -/
def malformedCheck (typ : GoType) : Bool :=
  (match typ with
   | .ptrT (.structT _) => false
   | .ptrT _ => true
   | _ => false)
  && (match typ with
      | .structT _ => false
      | _ => true)

/-- The implicit `fieldInfo{required: true}` of the root entry. -/
def rootFieldInfo : fieldInfo :=
  { name := "", required := true, index := [], anonymous := false }

/-- Top-level `Parse` from the source, with the external address parser
factored out: `host` is the URL host and `path` the already root-relative
store path.  Non-struct check, root lookup, entry-tree construction,
populate (with its store-operation trace), then unmarshal into the
unaddressable `reflect.ValueOf` value; a populate error or panic returns
before the target is touched. -/
def Parse (st : Store) (host path : String) (typ : GoType) (val : GoValue) :
    (GoValue × URes) × List StoreOp :=
  if malformedCheck typ then ((val, .err .malformedTarget), [])
  else
    match rootFor host with
    | none => ((val, .err (.unknownRoot host)), [])
    | some root =>
      match populate st root (entryFor typ path rootFieldInfo) with
      | (.ok pe, tr) => (unmarshalEntry false pe typ val, tr)
      | (.err e, tr) => ((val, .err e), tr)
      | (.goPanic, tr) => ((val, .goPanic), tr)

/-- Name constant A. -/
def sA : String := "A"

/-- Name constant B. -/
def sB : String := "B"

/-- Name constant X. -/
def sX : String := "X"

/-- Name constant N. -/
def sN : String := "N"

/-- Name constant V. -/
def sV : String := "V"

/-- Name constant M. -/
def sM : String := "M"

/-- Name constant T. -/
def sT : String := "T"

/-- The host name hkcu. -/
def hostHkcu : String := "hkcu"

/-- The store path p used by the concrete fixtures. -/
def pathP : String := "p"

/-- A plain non-required value field named N at index 0. -/
def fiN : fieldInfo :=
  { name := "N", required := false, index := [0], anonymous := false }

/-- A non-required value field named V at index 0. -/
def fiV : fieldInfo :=
  { name := "V", required := false, index := [0], anonymous := false }

/-- A required value field named V at index 0. -/
def fiVreq : fieldInfo :=
  { name := "V", required := true, index := [0], anonymous := false }

/-- A non-required value field named M at index 0. -/
def fiM : fieldInfo :=
  { name := "M", required := false, index := [0], anonymous := false }

/-- A non-required value field named T at index 0. -/
def fiT : fieldInfo :=
  { name := "T", required := false, index := [0], anonymous := false }

/-- An anonymous (embedded) composite field at index 0. -/
def fiAnon : fieldInfo :=
  { name := "E", required := false, index := [0], anonymous := true }

/-- A store that fails every open, probe and read. -/
def stNone : Store :=
  { openKey := fun _ _ => none
  , probe := fun _ _ => none
  , read := fun _ _ _ => none }

/-- A store whose probe always reports a zero-length binary value. -/
def stZero : Store :=
  { openKey := fun _ _ => none
  , probe := fun _ _ => some (0, 3)
  , read := fun _ _ _ => none }

/-- A store whose size/type probe succeeds for V but whose full read fails. -/
def stC3 : Store :=
  { openKey := fun _ _ => none
  , probe := fun _ n => if n = "V" then some (1, 3) else none
  , read := fun _ _ _ => none }

/-- A store for the partial-commit run: container p holds a one-byte
binary-tagged value A and a four-byte qword-tagged value B. -/
def stC2 : Store :=
  { openKey := fun h p => if h = HKCU ∧ p = "p" then some 50 else none
  , probe := fun h n =>
      if h = 50 ∧ n = "A" then some (1, 3)
      else if h = 50 ∧ n = "B" then some (4, 11) else none
  , read := fun h n _ =>
      if h = 50 ∧ n = "A" then some [7]
      else if h = 50 ∧ n = "B" then some [1, 2, 3, 4] else none }

/-- The struct behind the partial-commit target: a byte-slice field A and a
string field B, both untagged. -/
def tyC2s : GoType :=
  .structT
    [ .mk sA sEmpty false true (.sliceT .uint8T)
    , .mk sB sEmpty false true .stringT ]

/-- Target type for the partial-commit run: a pointer to that struct. -/
def tyC2 : GoType := .ptrT tyC2s

/-- The partial-commit run's initial target value: a non-nil pointer to the
zero struct, as a caller's `Parse(url, &bs)` hands in. -/
def tgtC2 : GoValue := .ptrV (some (zeroValue tyC2s))

/-- The struct whose two exported fields both carry the tag X, so both
resolve to the same store name inside one composite. -/
def tyDupS : GoType :=
  .structT
    [ .mk sA sX false true .uint32T
    , .mk sB sX false true .uint32T ]

/-- Target type for the duplicate-name run: a pointer to that struct. -/
def tyDup : GoType := .ptrT tyDupS

/-- The duplicate-name run's initial target value: a non-nil pointer to the
zero struct. -/
def tgtDup : GoValue := .ptrV (some (zeroValue tyDupS))

/-- A store for the duplicate-name run: container p holds a little-endian
dword value X. -/
def stDup : Store :=
  { openKey := fun h p => if h = HKCU ∧ p = "p" then some 9 else none
  , probe := fun h n => if h = 9 ∧ n = "X" then some (4, 4) else none
  , read := fun h n _ => if h = 9 ∧ n = "X" then some [7, 0, 0, 0] else none }

/-- An empty composite target behind a pointer. -/
def tyEmpty : GoType := .ptrT (.structT [])

/-- UTF-16LE bytes of A NUL B NUL NUL: two one-character null-terminated
strings followed by the extra terminating null. -/
def dataMulti : Bytes := [65, 0, 0, 0, 66, 0, 0, 0, 0, 0]

/-- UTF-16LE bytes of A B followed by the two-byte null terminator. -/
def dataText : Bytes := [65, 0, 66, 0, 0, 0]

/-- Little-endian four-byte encoding of a 32-bit value. -/
def le32 (v : Nat) : Bytes :=
  [v % 256, v / 256 % 256, v / 65536 % 256, v / 16777216 % 256]

/-- A store that opens every container as handle 7 and has no values. -/
def stOpen : Store :=
  { openKey := fun _ _ => some 7
  , probe := fun _ _ => none
  , read := fun _ _ _ => none }

/-- A non-required, non-anonymous field named A at index 0. -/
def fiA : fieldInfo :=
  { name := "A", required := false, index := [0], anonymous := false }

/-- The subentries of an entry (empty for a value entry). -/
def subentriesOf : registryEntry → List registryEntry
  | .key _ _ subs => subs
  | .value _ => []

/-- Lifting a populated-subentry outcome to the outcome of the enclosing
key's populate step. -/
def keyOutcome (fi : fieldInfo) : Outcome (List pEntry) → Outcome pEntry
  | .ok ps => .ok (.key fi ps false)
  | .err e => .err e
  | .goPanic => .goPanic

/-- Helper: a populate-phase error is returned by `Parse` verbatim, with the
target value untouched. -/
theorem parse_of_populate_err (st : Store) (host path : String) (typ : GoType)
    (val : GoValue) (root : Handle) (e : Err) (tr : List StoreOp)
    (hroot : rootFor host = some root) (hmal : malformedCheck typ = false)
    (hpop : populate st root (entryFor typ path rootFieldInfo) = (.err e, tr)) :
    Parse st host path typ val = ((val, .err e), tr) := by
  simp [Parse, hmal, hroot, hpop]

/-- Helper: the byte-pair conversion of an odd-length buffer ends in the
replacement character U+FFFD. -/
theorem bytesToU16_last_odd :
    ∀ (b : Bytes), b.length % 2 = 1 → (bytesToU16 b).getLast? = some 0xFFFD
  | [], h => by simp at h
  | [_], _ => rfl
  | a :: b2 :: rest, h => by
    have hr : rest.length % 2 = 1 := by simp at h; omega
    have ih := bytesToU16_last_odd rest hr
    show ((a + 256 * b2) :: bytesToU16 rest).getLast? = some 0xFFFD
    cases hb : bytesToU16 rest with
    | nil => rw [hb] at ih; simp at ih
    | cons x xs =>
      rw [hb] at ih
      rw [List.getLast?_cons_cons]
      exact ih

/-- Claim C3 counterexample: for the non-required value V, the size/type
probe succeeds but the full read fails, and populate returns the raw store
error instead of the skipped success the claim requires. -/
theorem c3_read_failure_counterexample :
    populate stC3 0 (.value fiV) =
      (.err .storeReadError, [.probeV 0 sV, .readV 0 sV])
  ∧ (populate stC3 0 (.value fiV)).1 ≠ .ok (.value fiV [] (-1) true) := by
  refine ⟨rfl, ?_⟩
  have hv : (populate stC3 0 (.value fiV)).1 = .err .storeReadError := rfl
  rw [hv]
  simp

/-- Claim C3 (amended): only a failing size/type probe gives the
required/optional split — optional probe failure is a skipped success,
required probe failure is RequiredMissing — while a failing second read
returns the raw store error unconditionally. -/
theorem c3_value_populate_behaviour :
    (∀ (st : Store) (h : Handle) (fi : fieldInfo),
       fi.required = false → st.probe h fi.name = none →
       populate st h (.value fi) =
         (.ok (.value fi [] (-1) true), [.probeV h fi.name]))
  ∧ (∀ (st : Store) (h : Handle) (fi : fieldInfo) (n k : Nat),
       st.probe h fi.name = some (n, k) → n ≠ 0 → st.read h fi.name n = none →
       populate st h (.value fi) =
         (.err .storeReadError, [.probeV h fi.name, .readV h fi.name]))
  ∧ (∀ (st : Store) (h : Handle) (fi : fieldInfo),
       fi.required = true → st.probe h fi.name = none →
       populate st h (.value fi) =
         (.err (.requiredValueMissing fi.name), [.probeV h fi.name])) := by
  refine ⟨?_, ?_, ?_⟩
  · intro st h fi hreq hp
    simp [populate, hp, hreq]
  · intro st h fi n k hp hn hr
    simp [populate, hp, hn, hr]
  · intro st h fi hreq hp
    simp [populate, hp, hreq]

/-- Witness for C3's amended statement at concrete stores. -/
theorem c3_value_populate_behaviour_witness :
    populate stNone 0 (.value fiV) =
      (.ok (.value fiV [] (-1) true), [.probeV 0 sV])
  ∧ populate stC3 0 (.value fiV) =
      (.err .storeReadError, [.probeV 0 sV, .readV 0 sV])
  ∧ populate stNone 0 (.value fiVreq) =
      (.err (.requiredValueMissing sV), [.probeV 0 sV]) :=
  ⟨c3_value_populate_behaviour.1 stNone 0 fiV rfl rfl,
   c3_value_populate_behaviour.2.1 stC3 0 fiV 1 3 rfl (by decide) rfl,
   c3_value_populate_behaviour.2.2 stNone 0 fiVreq rfl rfl⟩

/-- Claim C4 counterexample: the multi-text buffer A NUL B NUL NUL decodes
to the two-element list with A and B, not to the single element A the claim
states. -/
theorem c4_multi_text_counterexample :
    unmarshalValue fiM dataMulti 7 false (.sliceT .stringT) (.strListV []) =
      (.strListV [[65], [66]], .ok)
  ∧ (GoValue.strListV [[65], [66]]) ≠ .strListV [[65]] := by
  refine ⟨rfl, ?_⟩
  simp

/-- Claim C4 (amended): the buffer splits on NUL into the segments A, B and
two empty segments, and dropping the last two split segments leaves exactly
the list with A and B. -/
theorem c4_multi_text_split :
    decodeRaw fiM.name dataMulti 7 = .ok (.multiText [[65], [66]])
  ∧ splitOnZero (utf16BytesToUTF8 dataMulti) = [[65], [66], [], []] :=
  ⟨rfl, rfl⟩

/-- Claim C6: the text value A B with its two-byte null terminator decodes
to the two-character string A B (terminator dropped before decoding), and
the byte-pair conversion of any odd-length buffer replaces the trailing
half code unit with U+FFFD. -/
theorem c6_text_round_trip :
    unmarshalValue fiT dataText 1 false .stringT (.stringV []) =
      (.stringV [65, 66], .ok)
  ∧ ∀ (b : Bytes), b.length % 2 = 1 → (bytesToU16 b).getLast? = some 0xFFFD :=
  ⟨rfl, bytesToU16_last_odd⟩

/-- Witness for C6 at a concrete odd-length buffer. -/
theorem c6_text_round_trip_witness :
    (bytesToU16 [1, 2, 3]).getLast? = some 0xFFFD :=
  c6_text_round_trip.2 [1, 2, 3] rfl

/-- Claim C10: a successful probe reporting data length zero drives
`populate` into `&data[0]` on an empty slice, a Go panic, before the second
read is ever attempted. -/
theorem c10_zero_length_probe_panics :
    ∀ (st : Store) (h : Handle) (fi : fieldInfo) (k : Nat),
      st.probe h fi.name = some (0, k) →
      populate st h (.value fi) = (.goPanic, [.probeV h fi.name]) := by
  intro st h fi k hp
  simp [populate, hp]

/-- Witness for C10 at a concrete store whose probe reports length zero. -/
theorem c10_zero_length_probe_panics_witness :
    populate stZero 0 (.value fiN) = (.goPanic, [.probeV 0 sN]) :=
  c10_zero_length_probe_panics stZero 0 fiN 3 rfl

/-- Claim C1: a required entry whose backing lookup fails — the container
open of a non-anonymous key entry, or the size/type probe of a value entry —
makes its populate step return the corresponding RequiredMissing error; such
an error propagates through `populateList` past any earlier siblings that
succeeded; and a populate-phase error is returned by `Parse` with the target
value completely untouched. -/
theorem c1_required_missing_aborts :
    (∀ (st : Store) (h : Handle) (fi : fieldInfo) (path : String)
       (subs : List registryEntry),
       fi.anonymous = false → fi.required = true → st.openKey h path = none →
       (populate st h (.key fi path subs)).1 = .err (.requiredKeyMissing path))
  ∧ (∀ (st : Store) (h : Handle) (fi : fieldInfo),
       fi.required = true → st.probe h fi.name = none →
       (populate st h (.value fi)).1 = .err (.requiredValueMissing fi.name))
  ∧ (∀ (st : Store) (h : Handle) (pre : List registryEntry)
       (ent : registryEntry) (rest : List registryEntry) (e : Err),
       (∀ x ∈ pre, ∃ p t, populate st h x = (.ok p, t)) →
       (populate st h ent).1 = .err e →
       ∃ tr, populateList st h (pre ++ ent :: rest) = (.err e, tr))
  ∧ (∀ (st : Store) (host path : String) (typ : GoType) (val : GoValue)
       (root : Handle) (e : Err) (tr : List StoreOp),
       rootFor host = some root → malformedCheck typ = false →
       populate st root (entryFor typ path rootFieldInfo) = (.err e, tr) →
       Parse st host path typ val = ((val, .err e), tr)) := by
  refine ⟨?_, ?_, ?_, ?_⟩
  · intro st h fi path subs ha hr ho
    simp [populate, ha, ho, hr]
  · intro st h fi hr hp
    simp [populate, hp, hr]
  · intro st h pre ent rest e
    induction pre with
    | nil =>
      intro _ hent
      cases hq : populate st h ent with
      | mk o t =>
        rw [hq] at hent
        simp only at hent
        subst hent
        exact ⟨t, by simp [populateList, hq]⟩
    | cons x pre ih =>
      intro hpre hent
      obtain ⟨p, t, hx⟩ := hpre x (List.mem_cons_self x pre)
      obtain ⟨tr, hrec⟩ :=
        ih (fun y hy => hpre y (List.mem_cons_of_mem x hy)) hent
      exact ⟨t ++ tr, by simp [populateList, hx, hrec]⟩
  · intro st host path typ val root e tr h1 h2 h3
    exact parse_of_populate_err st host path typ val root e tr h1 h2 h3

/-- Witness for C1: a failing probe of a required value yields
RequiredMissing, and a failing open of the required root key makes `Parse`
return RequiredMissing with the zero target returned unchanged. -/
theorem c1_required_missing_aborts_witness :
    (populate stNone 0 (.value fiVreq)).1 = .err (.requiredValueMissing sV)
  ∧ Parse stNone hostHkcu pathP tyEmpty (zeroValue tyEmpty) =
      ((zeroValue tyEmpty, .err (.requiredKeyMissing pathP)),
       [.openK HKCU pathP]) :=
  ⟨c1_required_missing_aborts.2.1 stNone 0 fiVreq rfl rfl,
   c1_required_missing_aborts.2.2.2 stNone hostHkcu pathP tyEmpty
     (zeroValue tyEmpty) HKCU (.requiredKeyMissing pathP) [.openK HKCU pathP]
     rfl rfl rfl⟩

/-- Claim C2 counterexample: decoding into a non-nil pointer to a zero
struct (the `Parse(url, &bs)` shape, so no unaddressable `Set` occurs) with
a good binary field A and a qword-tagged value under the string field B
fails with TypeMismatch on B, yet the returned target has field A already
set — not the untouched initial zero value the claim requires. -/
theorem c2_partial_commit_counterexample :
    (Parse stC2 hostHkcu pathP tyC2 tgtC2).1 =
      (.ptrV (some (.structV [.bytesV [7], .stringV []])),
       .err (.typeMismatch sB))
  ∧ (GoValue.ptrV (some (.structV [.bytesV [7], .stringV []]))) ≠ tgtC2 := by
  refine ⟨rfl, ?_⟩
  simp [tgtC2, tyC2s, zeroValue, zeroFields]

/-- Claim C2 (amended): errors raised during the populate phase do leave the
target untouched — `Parse` returns the original target value verbatim with
the error — while unmarshal-phase errors may leave earlier sibling fields
written and pointers allocated. -/
theorem c2_populate_error_leaves_target_unchanged :
    ∀ (st : Store) (host path : String) (typ : GoType) (val : GoValue)
      (root : Handle) (e : Err) (tr : List StoreOp),
      rootFor host = some root → malformedCheck typ = false →
      populate st root (entryFor typ path rootFieldInfo) = (.err e, tr) →
      Parse st host path typ val = ((val, .err e), tr) := by
  intro st host path typ val root e tr h1 h2 h3
  exact parse_of_populate_err st host path typ val root e tr h1 h2 h3

/-- Witness for C2's amended statement: a populate-phase RequiredMissing is
returned with the (non-zero) target value unchanged. -/
theorem c2_populate_error_leaves_target_unchanged_witness :
    Parse stC3 hostHkcu pathP .intT (.intV 5) =
      ((.intV 5, .err (.requiredValueMissing sEmpty)),
       [.probeV HKCU sEmpty]) :=
  c2_populate_error_leaves_target_unchanged stC3 hostHkcu pathP .intT
    (.intV 5) HKCU (.requiredValueMissing sEmpty) [.probeV HKCU sEmpty]
    rfl rfl rfl

/-- Claim C5: an anonymous (embedded) key populates its subentries against
the very parent handle with exactly the subentries' own store operations (no
extra open or close); a non-anonymous key with a successful open populates
its subentries against the newly opened handle, with the trace bracketed by
the open of its path under the parent and the close of the new handle; and a
struct field accepted by `fieldToFieldInfo` has its entry built with the
resolved FieldSpec name as the sub-container path. -/
theorem c5_embedded_vs_nested :
    (∀ (st : Store) (h : Handle) (fi : fieldInfo) (path : String)
       (subs : List registryEntry), fi.anonymous = true →
       populate st h (.key fi path subs) =
         (keyOutcome fi (populateList st h subs).1,
          (populateList st h subs).2))
  ∧ (∀ (st : Store) (h : Handle) (fi : fieldInfo) (path : String)
       (subs : List registryEntry) (h2 : Handle),
       fi.anonymous = false → st.openKey h path = some h2 →
       populate st h (.key fi path subs) =
         (keyOutcome fi (populateList st h2 subs).1,
          .openK h path :: (populateList st h2 subs).2 ++ [.closeK h2]))
  ∧ (∀ (n tag : String) (anon exp : Bool) (t : GoType) (rest : List GoField)
       (i : Nat) (nfi : fieldInfo),
       fieldToFieldInfo i n tag anon exp = some nfi →
       entriesForFields (.mk n tag anon exp t :: rest) i =
         entryFor t nfi.name nfi :: entriesForFields rest (i + 1)) := by
  refine ⟨?_, ?_, ?_⟩
  · intro st h fi path subs ha
    cases hpl : populateList st h subs with
    | mk o tr => cases o <;> simp [populate, ha, hpl, keyOutcome]
  · intro st h fi path subs h2 ha ho
    cases hpl : populateList st h2 subs with
    | mk o tr => cases o <;> simp [populate, ha, ho, hpl, keyOutcome]
  · intro n tag anon exp t rest i nfi hf
    simp [entriesForFields, hf]

/-- Witness for C5 at concrete stores: an embedded key against the parent
handle, a nested key bracketed by its open and close, and a concrete field
whose entry path is its resolved name. -/
theorem c5_embedded_vs_nested_witness :
    populate stNone 0 (.key fiAnon pathP []) =
      (keyOutcome fiAnon (populateList stNone 0 []).1,
       (populateList stNone 0 []).2)
  ∧ populate stOpen 0 (.key fiN pathP []) =
      (keyOutcome fiN (populateList stOpen 7 []).1,
       .openK 0 pathP :: (populateList stOpen 7 []).2 ++ [.closeK 7])
  ∧ entriesForFields [.mk sA sEmpty false true .stringT] 0 =
      entryFor .stringT fiA.name fiA :: entriesForFields [] 1 :=
  ⟨c5_embedded_vs_nested.1 stNone 0 fiAnon pathP [] rfl,
   c5_embedded_vs_nested.2.1 stOpen 0 fiN pathP [] 7 rfl rfl,
   c5_embedded_vs_nested.2.2 sA sEmpty false true .stringT [] 0 fiA rfl⟩

/-- Helper: the value `intTrunc` leaves in a `w`-bit signed field is
congruent to the input modulo `2^w` and lies in the two's-complement range. -/
theorem intTrunc_spec (w : Nat) (hw : 0 < w) (n : Int) :
    intTrunc w n % 2 ^ w = n % 2 ^ w
    ∧ -(2 ^ (w - 1)) ≤ intTrunc w n ∧ intTrunc w n < 2 ^ (w - 1) := by
  have hpos : (0 : Int) < 2 ^ w := by positivity
  have h0 : 0 ≤ n % 2 ^ w := Int.emod_nonneg n (ne_of_gt hpos)
  have h1 : n % 2 ^ w < 2 ^ w := Int.emod_lt_of_pos n hpos
  have h2 : (2 : Int) ^ w = 2 * 2 ^ (w - 1) := by
    conv_lhs => rw [show w = (w - 1) + 1 by omega]
    ring
  unfold intTrunc
  split
  · refine ⟨?_, by omega, by omega⟩
    exact Int.emod_emod_of_dvd n (dvd_refl _)
  · refine ⟨?_, by omega, by omega⟩
    rw [Int.sub_emod, Int.emod_emod_of_dvd n (dvd_refl _), Int.emod_self,
      sub_zero, Int.emod_emod_of_dvd n (dvd_refl _)]

/-- Claim C7: a canonical 32-bit Integer converts into every fixed-width
unsigned target as the value reduced modulo the target width, into every
fixed-width signed target as its two's-complement representative modulo the
target width, and into the platform-wide int/uint unchanged — always
successfully, with no range check; shown end to end for a dword-tagged store
value as well. -/
theorem c7_integer_narrowing :
    ∀ (v : Nat), v < 2 ^ 32 →
      (convertVal sN (.numeric v) .uint8T = .ok (.uintV (v % 2 ^ 8))
       ∧ convertVal sN (.numeric v) .uint16T = .ok (.uintV (v % 2 ^ 16))
       ∧ convertVal sN (.numeric v) .uint32T = .ok (.uintV (v % 2 ^ 32))
       ∧ convertVal sN (.numeric v) .uintT = .ok (.uintV (v % 2 ^ 64)))
    ∧ ((∃ r, convertVal sN (.numeric v) .int8T = .ok (.intV r)
          ∧ r % 2 ^ 8 = (v : Int) % 2 ^ 8 ∧ -(2 ^ 7) ≤ r ∧ r < 2 ^ 7)
       ∧ (∃ r, convertVal sN (.numeric v) .int16T = .ok (.intV r)
          ∧ r % 2 ^ 16 = (v : Int) % 2 ^ 16 ∧ -(2 ^ 15) ≤ r ∧ r < 2 ^ 15)
       ∧ (∃ r, convertVal sN (.numeric v) .int32T = .ok (.intV r)
          ∧ r % 2 ^ 32 = (v : Int) % 2 ^ 32 ∧ -(2 ^ 31) ≤ r ∧ r < 2 ^ 31)
       ∧ (∃ r, convertVal sN (.numeric v) .intT = .ok (.intV r)
          ∧ r % 2 ^ 64 = (v : Int) % 2 ^ 64 ∧ -(2 ^ 63) ≤ r ∧ r < 2 ^ 63))
    ∧ unmarshalValue fiN (le32 v) 4 false .uint8T (zeroValue .uint8T) =
        (.uintV (v % 2 ^ 8), .ok) := by
  intro v hv
  have hread : readU32LE (le32 v) = v := by
    simp only [readU32LE, le32]
    omega
  refine ⟨⟨rfl, rfl, rfl, rfl⟩, ⟨?_, ?_, ?_, ?_⟩, ?_⟩
  · exact ⟨intTrunc 8 (Int.ofNat v), rfl, (intTrunc_spec 8 (by norm_num) _).1,
      (intTrunc_spec 8 (by norm_num) _).2.1, (intTrunc_spec 8 (by norm_num) _).2.2⟩
  · exact ⟨intTrunc 16 (Int.ofNat v), rfl, (intTrunc_spec 16 (by norm_num) _).1,
      (intTrunc_spec 16 (by norm_num) _).2.1, (intTrunc_spec 16 (by norm_num) _).2.2⟩
  · exact ⟨intTrunc 32 (Int.ofNat v), rfl, (intTrunc_spec 32 (by norm_num) _).1,
      (intTrunc_spec 32 (by norm_num) _).2.1, (intTrunc_spec 32 (by norm_num) _).2.2⟩
  · exact ⟨intTrunc 64 (Int.ofNat v), rfl, (intTrunc_spec 64 (by norm_num) _).1,
      (intTrunc_spec 64 (by norm_num) _).2.1, (intTrunc_spec 64 (by norm_num) _).2.2⟩
  · simp [unmarshalValue, decodeRaw, hread, convertVal, goWidth]

/-- Witness for C7 at the out-of-range value 300 into a uint8 target. -/
theorem c7_integer_narrowing_witness :
    convertVal sN (.numeric 300) .uint8T = .ok (.uintV (300 % 2 ^ 8)) :=
  (c7_integer_narrowing 300 (by norm_num)).1.1

/-- Claim C8: the non-struct target check of `Parse` only fires for a
pointer to a non-struct — a directly passed non-struct target slips past it,
a ValueEntry is built for the whole target and a store probe is performed,
and decode ends in RequiredMissing instead of MalformedTarget. -/
theorem c8_nonstruct_target_reaches_io :
    malformedCheck .intT = false
  ∧ Parse stNone hostHkcu pathP .intT (.intV 0) =
      ((.intV 0, .err (.requiredValueMissing sEmpty)), [.probeV HKCU sEmpty])
  ∧ (Err.requiredValueMissing sEmpty) ≠ .malformedTarget
  ∧ malformedCheck (.ptrT .intT) = true := by
  refine ⟨rfl, rfl, ?_, rfl⟩
  simp

/-- Helper: the field metadata an entry built by `entryFor` carries is the
`fieldInfo` it was built with. -/
theorem entryFieldInfo_entryFor (t : GoType) (p : String) (f : fieldInfo) :
    entryFieldInfo (entryFor t p f) = f := by
  cases t <;> try rfl
  next e => cases e <;> rfl

/-- Helper: `fieldToFieldInfo` depends on the field index only through the
index path it records. -/
theorem fieldToFieldInfo_index (i j : Nat) (n tag : String) (a e : Bool) :
    fieldToFieldInfo i n tag a e =
      (fieldToFieldInfo j n tag a e).map fun fi => { fi with index := [i] } := by
  unfold fieldToFieldInfo
  by_cases h1 : e = false <;> simp [h1]
  by_cases h2 : tag = "-" <;> simp [h2]

/-- Helper: the entry list a field list produces carries exactly the
resolved names of its non-excluded exported fields, in declaration order and
with multiplicity — nothing is merged or rejected. -/
theorem entryNames_entriesForFields :
    ∀ (fields : List GoField) (i : Nat),
      entryNames (entriesForFields fields i) = resolvedNames fields := by
  intro fields
  induction fields with
  | nil => intro i; rfl
  | cons f rest ih =>
    intro i
    cases f with
    | mk n tag anon exp t =>
      cases hf : fieldToFieldInfo 0 n tag anon exp with
      | none =>
        have hfi : fieldToFieldInfo i n tag anon exp = none := by
          rw [fieldToFieldInfo_index i 0, hf]; rfl
        simp [entriesForFields, resolvedNames, hf, hfi, ih]
      | some nfi =>
        have hfi : fieldToFieldInfo i n tag anon exp =
            some { nfi with index := [i] } := by
          rw [fieldToFieldInfo_index i 0, hf]; rfl
        simp [entriesForFields, resolvedNames, hf, hfi, entryNames,
          entryFieldInfo_entryFor]
        exact ih (i + 1)

/-- Claim C9 counterexample: a composite whose two fields both resolve to
the store name X is accepted by schema construction — both entries are
built, carrying the duplicate name — and the whole decode then runs to
success, performing I/O; no construction error exists. -/
theorem c9_duplicate_names_counterexample :
    entryNames (subentriesOf (entryFor tyDup pathP rootFieldInfo)) = [sX, sX]
  ∧ (Parse stDup hostHkcu pathP tyDup tgtDup).1 =
      (.ptrV (some (.structV [.uintV 7, .uintV 7])), .ok) :=
  ⟨rfl, rfl⟩

/-- Claim C9 (amended): schema construction cannot fail — duplicate resolved
names within one composite are silently accepted, every non-excluded
exported field contributes its own entry with its resolved name kept with
multiplicity, and a decode over duplicates completes successfully with each
duplicate populated from the same store value into its own field. -/
theorem c9_duplicate_names_silently_accepted :
    (∀ (fields : List GoField) (i : Nat),
       entryNames (entriesForFields fields i) = resolvedNames fields)
  ∧ (Parse stDup hostHkcu pathP tyDup tgtDup).1 =
      (.ptrV (some (.structV [.uintV 7, .uintV 7])), .ok) :=
  ⟨entryNames_entriesForFields, rfl⟩
